import Mathlib

/-!
A shallow embedding of the CSV validation engine of
src/validation/validate_data.py: per-column typed parsing against a
declared schema, the subscriptions logical rule, the usage referential
rules, and the run driver that sequences the five datasets.

Modelling conventions: Python text is Lean String; the float type is
modelled by exact rationals (Rat); str.strip and str.lower are modelled
on the ASCII range, which covers every literal the validator compares
against; a csv.DictReader row is a total map from column name to cell
text; the file system is a map from dataset name to an optional CSV
file; exceptions are Except values; log output is returned as an
explicit list of diagnostics alongside each stage result.
-/

namespace Validate

/-- Names of the five datasets and of the columns the validators touch,
as string constants. -/
def customersName : String := "customers"

/-- Dataset name constant. -/
def plansName : String := "plans"

/-- Dataset name constant. -/
def contentName : String := "content"

/-- Dataset name constant. -/
def subscriptionsName : String := "subscriptions"

/-- Dataset name constant. -/
def usageLogsName : String := "usage_logs"

/-- Column name constant. -/
def colCustomerId : String := "customer_id"

/-- Column name constant. -/
def colSignupDate : String := "signup_date"

/-- Column name constant. -/
def colPlanId : String := "plan_id"

/-- Column name constant. -/
def colPrice : String := "price"

/-- Column name constant. -/
def colContentId : String := "content_id"

/-- Column name constant. -/
def colDurationMinutes : String := "duration_minutes"

/-- Column name constant. -/
def colSubscriptionId : String := "subscription_id"

/-- Column name constant. -/
def colStartDate : String := "start_date"

/-- Column name constant. -/
def colEndDate : String := "end_date"

/-- Column name constant. -/
def colAutoRenew : String := "auto_renew"

/-- Column name constant. -/
def colUsageId : String := "usage_id"

/-- Column name constant. -/
def colTimestamp : String := "timestamp"

/-- Column name constant. -/
def colDurationWatched : String := "duration_watched"

/-- Column name constant. -/
def colCompletionRate : String := "completion_rate"

/-- Calendar date as Python datetime.date stores it: year, month, day,
compared lexicographically. -/
structure Date where
  year : Int
  month : Nat
  day : Nat
deriving DecidableEq, Repr

/-- Chronological strict order on dates, as Python compares date values:
lexicographic on (year, month, day). -/
def Date.lt (a b : Date) : Bool :=
  if a.year = b.year then
    if a.month = b.month then decide (a.day < b.day)
    else decide (a.month < b.month)
  else decide (a.year < b.year)

/-- Timestamp value produced by datetime.fromisoformat: a date plus a
time of day. -/
structure DateTime where
  date : Date
  hour : Nat
  minute : Nat
  second : Nat
deriving DecidableEq, Repr

/-- Typed cell values a parser can produce: int, float (as Rat), date,
optional date, datetime, bool, or pass-through text. -/
inductive Value where
  | vInt : Int → Value
  | vRat : Rat → Value
  | vDate : Date → Value
  | vOptDate : Option Date → Value
  | vDatetime : DateTime → Value
  | vBool : Bool → Value
  | vStr : String → Value
deriving DecidableEq, Repr

/-- Characters removed by str.strip with no argument. -/
def isSpaceChar (c : Char) : Bool :=
  c = ' ' ∨ c = '\t' ∨ c = '\n' ∨ c = '\r' ∨ c = '\x0b' ∨ c = '\x0c'

/-- Model of str.strip: drop leading and trailing whitespace. -/
def stripChars (cs : List Char) : List Char :=
  ((cs.dropWhile isSpaceChar).reverse.dropWhile isSpaceChar).reverse

/-- Model of str.lower on the ASCII range. -/
def lowerChars (cs : List Char) : List Char :=
  cs.map Char.toLower

/-- Decimal digits to a natural number, most significant first. -/
def digitsToNat (cs : List Char) : Nat :=
  cs.foldl (fun a c => a * 10 + (c.toNat - 48)) 0

/-- Lowercased copy of a string (ASCII range), used to state the
case-insensitive reading of the boolean literal sets. -/
def lowerStr (s : String) : String :=
  String.mk (lowerChars s.toList)

/-- Stripped and lowercased copy of a string, the normalisation
parse_bool applies before comparing against its literal sets. -/
def normBool (s : String) : String :=
  String.mk (lowerChars (stripChars s.toList))

/-- Model of Python int(text): optional surrounding whitespace, an
optional sign, then one or more decimal digits. -/
def parseIntText (s : String) : Except String Int :=
  let t := stripChars s.toList
  let signed : Int × List Char :=
    match t with
    | '+' :: rest => (1, rest)
    | '-' :: rest => (-1, rest)
    | rest => (1, rest)
  if signed.2 ≠ [] ∧ signed.2.all Char.isDigit then
    .ok (signed.1 * (digitsToNat signed.2 : Int))
  else
    .error ("invalid literal for int: " ++ s)

/-- Decimal mantissa, possibly with a fractional point, as an exact
rational. -/
def parseDecimalCore (cs : List Char) : Option Rat :=
  match cs.splitOn '.' with
  | [ip] =>
    if ip ≠ [] ∧ ip.all Char.isDigit then some (digitsToNat ip : Rat) else none
  | [ip, fp] =>
    if (ip ≠ [] ∨ fp ≠ []) ∧ ip.all Char.isDigit ∧ fp.all Char.isDigit then
      some ((digitsToNat ip : Rat) + (digitsToNat fp : Rat) / ((10 : Rat) ^ fp.length))
    else none
  | _ => none

/-- Model of Python float(text) on finite decimal literals: optional
whitespace and sign, decimal mantissa, optional exponent. IEEE rounding
and the inf and nan literals are not modelled; no claim depends on them. -/
def parseFloatText (s : String) : Except String Rat :=
  let t := lowerChars (stripChars s.toList)
  let signed : Rat × List Char :=
    match t with
    | '+' :: rest => (1, rest)
    | '-' :: rest => (-1, rest)
    | rest => (1, rest)
  match signed.2.splitOn 'e' with
  | [m] =>
    match parseDecimalCore m with
    | some q => .ok (signed.1 * q)
    | none => .error ("could not convert string to float: " ++ s)
  | [m, e] =>
    let esigned : Int × List Char :=
      match e with
      | '+' :: rest => (1, rest)
      | '-' :: rest => (-1, rest)
      | rest => (1, rest)
    match parseDecimalCore m with
    | some q =>
      if esigned.2 ≠ [] ∧ esigned.2.all Char.isDigit then
        .ok (signed.1 * q * (10 : Rat) ^ (esigned.1 * (digitsToNat esigned.2 : Int)))
      else .error ("could not convert string to float: " ++ s)
    | none => .error ("could not convert string to float: " ++ s)
  | _ => .error ("could not convert string to float: " ++ s)

/-- Gregorian leap year rule. -/
def isLeapYear (y : Int) : Bool :=
  (y % 4 = 0 ∧ y % 100 ≠ 0) ∨ y % 400 = 0

/-- Days in a month of a given year. -/
def daysInMonth (y : Int) (m : Nat) : Nat :=
  if m = 2 then (if isLeapYear y then 29 else 28)
  else if m = 4 ∨ m = 6 ∨ m = 9 ∨ m = 11 then 30
  else 31

/-- Range validity of a date, as the Python date constructor enforces. -/
def Date.valid (d : Date) : Bool :=
  decide (1 ≤ d.year ∧ d.year ≤ 9999 ∧ 1 ≤ d.month ∧ d.month ≤ 12 ∧ 1 ≤ d.day) ∧
    decide (d.day ≤ daysInMonth d.year d.month)

/-- Model of date.fromisoformat on the canonical YYYY-MM-DD layout. -/
def parseDateText (s : String) : Except String Date :=
  match s.toList with
  | [y1, y2, y3, y4, '-', m1, m2, '-', d1, d2] =>
    if ([y1, y2, y3, y4, m1, m2, d1, d2].all Char.isDigit) then
      let d : Date :=
        { year := (digitsToNat [y1, y2, y3, y4] : Int),
          month := digitsToNat [m1, m2],
          day := digitsToNat [d1, d2] }
      if d.valid then .ok d else .error ("invalid isoformat string: " ++ s)
    else .error ("invalid isoformat string: " ++ s)
  | _ => .error ("invalid isoformat string: " ++ s)

/-- Time of day HH:MM or HH:MM:SS. -/
def parseTimeText (cs : List Char) : Except String (Nat × Nat × Nat) :=
  match cs with
  | [h1, h2, ':', m1, m2] =>
    if ([h1, h2, m1, m2].all Char.isDigit) ∧
        digitsToNat [h1, h2] < 24 ∧ digitsToNat [m1, m2] < 60 then
      .ok (digitsToNat [h1, h2], digitsToNat [m1, m2], 0)
    else .error ("invalid time")
  | [h1, h2, ':', m1, m2, ':', s1, s2] =>
    if ([h1, h2, m1, m2, s1, s2].all Char.isDigit) ∧
        digitsToNat [h1, h2] < 24 ∧ digitsToNat [m1, m2] < 60 ∧
        digitsToNat [s1, s2] < 60 then
      .ok (digitsToNat [h1, h2], digitsToNat [m1, m2], digitsToNat [s1, s2])
    else .error ("invalid time")
  | _ => .error ("invalid time")

/-- The per-column parse rules: text in, typed value or failure out.
Each mirrors the function of the same name in the source. -/
def parse_int (value : String) : Except String Value :=
  (parseIntText value).map Value.vInt

/-- Float parse rule, producing an exact rational. -/
def parse_float (value : String) : Except String Value :=
  (parseFloatText value).map Value.vRat

/-- Date parse rule: empty text is rejected explicitly, otherwise ISO
format is required. -/
def parse_date (value : String) : Except String Value :=
  if value = "" then .error ("expected date, received empty string")
  else (parseDateText value).map Value.vDate

/-- Optional-date parse rule: empty text means no value. -/
def parse_optional_date (value : String) : Except String Value :=
  if value = "" then .ok (Value.vOptDate none)
  else (parseDateText value).map (fun d => Value.vOptDate (some d))

/-- Datetime parse rule: empty text rejected, date part required,
optional time part after a T or space separator. -/
def parse_datetime (value : String) : Except String Value :=
  if value = "" then .error ("expected datetime, received empty string")
  else
    match parseDateText (String.mk (value.toList.take 10)) with
    | .error e => .error e
    | .ok d =>
      match value.toList.drop 10 with
      | [] => .ok (Value.vDatetime { date := d, hour := 0, minute := 0, second := 0 })
      | sep :: timeChars =>
        if sep = 'T' ∨ sep = ' ' then
          match parseTimeText timeChars with
          | .error e => .error e
          | .ok t =>
            .ok (Value.vDatetime { date := d, hour := t.1, minute := t.2.1, second := t.2.2 })
        else .error ("invalid isoformat string: " ++ value)

/-- Boolean parse rule: strip and lowercase, then compare against the
two literal sets; anything else fails. -/
def parse_bool (value : String) : Except String Value :=
  let normalized := normBool value
  if normalized = "true" ∨ normalized = "1" ∨ normalized = "yes" then
    .ok (Value.vBool true)
  else if normalized = "false" ∨ normalized = "0" ∨ normalized = "no" then
    .ok (Value.vBool false)
  else
    .error ("invalid boolean literal: " ++ value)

/-- Declarative dataset schema: the ordered expected column names and
an optional parse rule per column (absent means pass-through text). -/
structure SchemaCfg where
  columns : List String
  parsers : String → Option (String → Except String Value)

/-- One row of a csv.DictReader: a total map from column name to the
cell text of that row. -/
abbrev RawRow := String → String

/-- Typed row: column name to typed value pairs in declared column
order, tagged with the originating 1-based line number. -/
structure TypedRow where
  fields : List (String × Value)
  line : Nat
deriving DecidableEq, Repr

/-- One diagnostic: dataset, source line, failing column, message. -/
structure Diag where
  dataset : String
  line : Nat
  column : String
  message : String
deriving DecidableEq, Repr

/-- Fatal, dataset-scoped failures of load_and_validate_schema. -/
inductive LoadError where
  | sourceMissing : String → LoadError
  | noHeader : String → LoadError
  | schemaMismatch : String → List String → List String → LoadError
deriving DecidableEq, Repr

/-- A CSV file as csv.DictReader sees it: the header (none for an empty
file) and the data rows. -/
structure CsvFile where
  header : Option (List String)
  rows : List RawRow

/-- Type one row: walk the declared columns in order; a column with a
parse rule contributes the parsed value or aborts the row at its first
failure, reporting the column and message; a column without one keeps
the original text. -/
def typeRow (parsers : String → Option (String → Except String Value)) :
    List String → RawRow → Except (String × String) (List (String × Value))
  | [], _ => .ok []
  | c :: cs, row =>
    match parsers c with
    | none => (typeRow parsers cs row).map (fun fs => (c, Value.vStr (row c)) :: fs)
    | some p =>
      match p (row c) with
      | .error e => .error (c, e)
      | .ok v => (typeRow parsers cs row).map (fun fs => (c, v) :: fs)

/-- The data-row loop of load_and_validate_schema: rows are numbered
from the given starting line; a row whose typing fails is dropped with
one diagnostic and one invalid-count increment, a row that types fully
becomes a TypedRow; processing always continues to the next row. -/
def processRows (dataset : String) (cfg : SchemaCfg) (ln : Nat) :
    List RawRow → List TypedRow × Nat × List Diag
  | [] => ([], 0, [])
  | r :: rs =>
    let rest := processRows dataset cfg (ln + 1) rs
    match typeRow cfg.parsers cfg.columns r with
    | .error ce =>
      (rest.1, rest.2.1 + 1,
        { dataset := dataset, line := ln, column := ce.1, message := ce.2 } :: rest.2.2)
    | .ok fs => ({ fields := fs, line := ln } :: rest.1, rest.2.1, rest.2.2)

/-- The whole of load_and_validate_schema: a missing file, a missing
header, or a header differing from the declared column sequence is a
fatal error with no rows processed; otherwise the data rows are typed
starting at line 2. -/
def load_and_validate_schema (dataset : String) (cfg : SchemaCfg) (file : Option CsvFile) :
    Except LoadError (List TypedRow × Nat × List Diag) :=
  match file with
  | none => .error (LoadError.sourceMissing dataset)
  | some f =>
    match f.header with
    | none => .error (LoadError.noHeader dataset)
    | some h =>
      if h = cfg.columns then .ok (processRows dataset cfg 2 f.rows)
      else .error (LoadError.schemaMismatch dataset cfg.columns h)

/-- Typed subscriptions row, with the fields the subscriptions schema
guarantees after a successful schema pass. -/
structure SubRow where
  subscription_id : Int
  customer_id : Int
  plan_id : Int
  start_date : Date
  end_date : Option Date
  auto_renew : Bool
  line : Nat
deriving DecidableEq, Repr

/-- Logical-rule violation for subscriptions, carrying the offending
start and end dates. -/
inductive SubError where
  | startAfterEnd : Date → Date → SubError
deriving DecidableEq, Repr

/-- The subscriptions logical rule: a row whose end date is present and
chronologically before its start date is dropped, logged under its line
number, and counted once; every other row is kept. -/
def validate_subscriptions_logic :
    List SubRow → List SubRow × Nat × List (Nat × SubError)
  | [] => ([], 0, [])
  | r :: rs =>
    let rest := validate_subscriptions_logic rs
    match r.end_date with
    | some e =>
      if Date.lt e r.start_date then
        (rest.1, rest.2.1 + 1, (r.line, SubError.startAfterEnd r.start_date e) :: rest.2.2)
      else (r :: rest.1, rest.2.1, rest.2.2)
    | none => (r :: rest.1, rest.2.1, rest.2.2)

/-- Typed usage row, with the fields the usage_logs schema guarantees
after a successful schema pass. -/
structure UsageRow where
  usage_id : Int
  customer_id : Int
  content_id : Int
  timestamp : DateTime
  duration_watched : Int
  completion_rate : Rat
  line : Nat
deriving DecidableEq, Repr

/-- Referential and range violations for usage rows, each carrying the
offending values. -/
inductive UsageError where
  | unknownCustomer : Int → UsageError
  | unknownContent : Int → UsageError
  | durationExceeds : Int → Int → UsageError
  | completionOutOfRange : Rat → UsageError
deriving DecidableEq, Repr

/-- The four usage checks of one row, all evaluated, collected in the
order the source appends them: unknown customer, unknown content or
duration exceeding the content duration, completion rate out of range. -/
def usageErrors (cIds : Int → Bool) (cdur : Int → Option Int) (r : UsageRow) :
    List UsageError :=
  (if cIds r.customer_id then [] else [UsageError.unknownCustomer r.customer_id]) ++
    (match cdur r.content_id with
     | none => [UsageError.unknownContent r.content_id]
     | some d =>
       if d < r.duration_watched then [UsageError.durationExceeds r.duration_watched d]
       else []) ++
    (if 0 ≤ r.completion_rate ∧ r.completion_rate ≤ 1 then []
     else [UsageError.completionOutOfRange r.completion_rate])

/-- The usage referential and logical stage: a row with at least one
violation is dropped, each of its violations is logged under its line
number, and the invalid counter is incremented once; a row with no
violation is kept. -/
def validate_usage_rules :
    List UsageRow → (Int → Bool) → (Int → Option Int) →
      List UsageRow × Nat × List (Nat × UsageError)
  | [], _, _ => ([], 0, [])
  | r :: rs, cIds, cdur =>
    let rest := validate_usage_rules rs cIds cdur
    let errs := usageErrors cIds cdur r
    if errs.isEmpty then (r :: rest.1, rest.2.1, rest.2.2)
    else (rest.1, rest.2.1 + 1, errs.map (fun e => (r.line, e)) ++ rest.2.2)

/-- Declared column order of the customers dataset. -/
def customersColumns : List String :=
  ["customer_id", "name", "email", "signup_date", "device_type", "country"]

/-- Parse rules of the customers dataset. -/
def customersParsers (c : String) : Option (String → Except String Value) :=
  if c = "customer_id" then some parse_int
  else if c = "signup_date" then some parse_date
  else none

/-- Schema of the customers dataset. -/
def customersCfg : SchemaCfg :=
  { columns := customersColumns, parsers := customersParsers }

/-- Declared column order of the plans dataset. -/
def plansColumns : List String := ["plan_id", "name", "price"]

/-- Parse rules of the plans dataset. -/
def plansParsers (c : String) : Option (String → Except String Value) :=
  if c = "plan_id" then some parse_int
  else if c = "price" then some parse_float
  else none

/-- Schema of the plans dataset. -/
def plansCfg : SchemaCfg := { columns := plansColumns, parsers := plansParsers }

/-- Declared column order of the content dataset. -/
def contentColumns : List String := ["content_id", "title", "genre", "duration_minutes"]

/-- Parse rules of the content dataset. -/
def contentParsers (c : String) : Option (String → Except String Value) :=
  if c = "content_id" then some parse_int
  else if c = "duration_minutes" then some parse_int
  else none

/-- Schema of the content dataset. -/
def contentCfg : SchemaCfg := { columns := contentColumns, parsers := contentParsers }

/-- Declared column order of the subscriptions dataset. -/
def subscriptionsColumns : List String :=
  ["subscription_id", "customer_id", "plan_id", "start_date", "end_date", "auto_renew"]

/-- Parse rules of the subscriptions dataset. -/
def subscriptionsParsers (c : String) : Option (String → Except String Value) :=
  if c = "subscription_id" then some parse_int
  else if c = "customer_id" then some parse_int
  else if c = "plan_id" then some parse_int
  else if c = "start_date" then some parse_date
  else if c = "end_date" then some parse_optional_date
  else if c = "auto_renew" then some parse_bool
  else none

/-- Schema of the subscriptions dataset. -/
def subscriptionsCfg : SchemaCfg :=
  { columns := subscriptionsColumns, parsers := subscriptionsParsers }

/-- Declared column order of the usage_logs dataset. -/
def usageLogsColumns : List String :=
  ["usage_id", "customer_id", "content_id", "timestamp", "duration_watched", "completion_rate"]

/-- Parse rules of the usage_logs dataset. -/
def usageLogsParsers (c : String) : Option (String → Except String Value) :=
  if c = "usage_id" then some parse_int
  else if c = "customer_id" then some parse_int
  else if c = "content_id" then some parse_int
  else if c = "timestamp" then some parse_datetime
  else if c = "duration_watched" then some parse_int
  else if c = "completion_rate" then some parse_float
  else none

/-- Schema of the usage_logs dataset. -/
def usageLogsCfg : SchemaCfg :=
  { columns := usageLogsColumns, parsers := usageLogsParsers }

/-- The schema registry keyed by dataset name. -/
def SCHEMA_CONFIG (dataset : String) : Option SchemaCfg :=
  if dataset = "customers" then some customersCfg
  else if dataset = "plans" then some plansCfg
  else if dataset = "content" then some contentCfg
  else if dataset = "subscriptions" then some subscriptionsCfg
  else if dataset = "usage_logs" then some usageLogsCfg
  else none

/-- Typed value of a column of a typed row, when present. -/
def TypedRow.getVal (r : TypedRow) (c : String) : Option Value :=
  r.fields.lookup c

/-- Integer value of a column of a typed row, when present and typed
as an int. -/
def TypedRow.getInt (r : TypedRow) (c : String) : Option Int :=
  match r.fields.lookup c with
  | some (Value.vInt n) => some n
  | _ => none

/-- View of a typed subscriptions row through its guaranteed fields. -/
def toSubRow (r : TypedRow) : Option SubRow :=
  match r.getVal colSubscriptionId, r.getVal colCustomerId, r.getVal colPlanId,
      r.getVal colStartDate, r.getVal colEndDate, r.getVal colAutoRenew with
  | some (Value.vInt sid), some (Value.vInt cid), some (Value.vInt pid),
      some (Value.vDate s), some (Value.vOptDate e), some (Value.vBool a) =>
    some { subscription_id := sid, customer_id := cid, plan_id := pid,
           start_date := s, end_date := e, auto_renew := a, line := r.line }
  | _, _, _, _, _, _ => none

/-- View of a typed usage row through its guaranteed fields. -/
def toUsageRow (r : TypedRow) : Option UsageRow :=
  match r.getVal colUsageId, r.getVal colCustomerId, r.getVal colContentId,
      r.getVal colTimestamp, r.getVal colDurationWatched, r.getVal colCompletionRate with
  | some (Value.vInt uid), some (Value.vInt cid), some (Value.vInt kid),
      some (Value.vDatetime t), some (Value.vInt dw), some (Value.vRat cr) =>
    some { usage_id := uid, customer_id := cid, content_id := kid,
           timestamp := t, duration_watched := dw, completion_rate := cr, line := r.line }
  | _, _, _, _, _, _ => none

/-- Membership test of the known-customer-id set derived from the
customers typed rows. -/
def customerIdSet (customers : List TypedRow) (n : Int) : Bool :=
  customers.any (fun r => r.getInt colCustomerId = some n)

/-- The content-duration map derived from the content typed rows; as in
a Python dict comprehension, a later row with the same content id
overrides an earlier one. -/
def contentDurationMap (content : List TypedRow) (k : Int) : Option Int :=
  (content.reverse.find? (fun r => r.getInt colContentId = some k)).bind
    (fun r => r.getInt colDurationMinutes)

/-- The run driver: schema-validate the five datasets in the fixed
order customers, plans, content, subscriptions, usage_logs, apply the
subscriptions logical stage and the usage referential stage, and emit
the summary in insertion order. A fatal load error anywhere propagates
immediately: no later dataset is validated and no summary is emitted,
exactly as an uncaught exception unwinds run_validations. -/
def run_validations (fs : String → Option CsvFile) :
    Except LoadError (List (String × Nat × Nat)) :=
  match load_and_validate_schema customersName customersCfg (fs customersName) with
  | .error e => .error e
  | .ok (customers, cust_invalid, _) =>
    match load_and_validate_schema plansName plansCfg (fs plansName) with
    | .error e => .error e
    | .ok (plans, plans_invalid, _) =>
      match load_and_validate_schema contentName contentCfg (fs contentName) with
      | .error e => .error e
      | .ok (content, content_invalid, _) =>
        match load_and_validate_schema subscriptionsName subscriptionsCfg (fs subscriptionsName) with
        | .error e => .error e
        | .ok (subscriptions0, subs_invalid, _) =>
          match load_and_validate_schema usageLogsName usageLogsCfg (fs usageLogsName) with
          | .error e => .error e
          | .ok (usage0, usage_invalid, _) =>
            let subs := validate_subscriptions_logic (subscriptions0.filterMap toSubRow)
            let usage :=
              validate_usage_rules (usage0.filterMap toUsageRow)
                (customerIdSet customers) (contentDurationMap content)
            .ok [("customers", customers.length, cust_invalid),
                 ("plans", plans.length, plans_invalid),
                 ("content", content.length, content_invalid),
                 ("subscriptions", subs.1.length, subs_invalid + subs.2.1),
                 ("usage_logs", usage.1.length, usage_invalid + usage.2.1)]

/-- Whether an Except value carries a success. -/
def exceptOk {ε α : Type} : Except ε α → Bool
  | .ok _ => true
  | .error _ => false

/-- A column the row loop passes: either no parse rule is configured,
or the configured rule succeeds on the cell of the row. -/
def cellOk (parsers : String → Option (String → Except String Value))
    (c : String) (r : RawRow) : Prop :=
  match parsers c with
  | none => True
  | some p => ∃ v, p (r c) = Except.ok v

/-- Sample date 2024-01-01. -/
def dateJan1 : Date := { year := 2024, month := 1, day := 1 }

/-- Sample date 2024-12-31. -/
def dateDec31 : Date := { year := 2024, month := 12, day := 31 }

/-- Subscription row with start 2024-01-01 and end 2024-12-31. -/
def subKept : SubRow :=
  { subscription_id := 1, customer_id := 1, plan_id := 1,
    start_date := dateJan1, end_date := some dateDec31, auto_renew := true, line := 2 }

/-- Subscription row with start 2024-12-31 and end 2024-01-01. -/
def subRejected : SubRow :=
  { subscription_id := 2, customer_id := 1, plan_id := 1,
    start_date := dateDec31, end_date := some dateJan1, auto_renew := true, line := 2 }

/-- Subscription row with start 2024-01-01 and no end date. -/
def subOpenEnd : SubRow :=
  { subscription_id := 3, customer_id := 1, plan_id := 1,
    start_date := dateJan1, end_date := none, auto_renew := true, line := 2 }

/-- Sample known-customer set containing exactly customer 1. -/
def sampleIds (n : Int) : Bool := n = 1

/-- Sample content-duration map: content 1 lasts 120 minutes. -/
def sampleDurations (k : Int) : Option Int := if k = 1 then some 120 else none

/-- Usage row passing all four checks against the samples above. -/
def usageOkRow : UsageRow :=
  { usage_id := 1, customer_id := 1, content_id := 1,
    timestamp := { date := dateJan1, hour := 10, minute := 0, second := 0 },
    duration_watched := 60, completion_rate := 1 / 2, line := 2 }

/-- Usage row watching 150 minutes of the 120-minute content. -/
def usageLongRow : UsageRow :=
  { usage_id := 2, customer_id := 1, content_id := 1,
    timestamp := { date := dateJan1, hour := 10, minute := 0, second := 0 },
    duration_watched := 150, completion_rate := 1 / 2, line := 3 }

/-- Usage row whose completion rate 1.5 is out of range. -/
def usageRateRow : UsageRow :=
  { usage_id := 3, customer_id := 1, content_id := 1,
    timestamp := { date := dateJan1, hour := 10, minute := 0, second := 0 },
    duration_watched := 60, completion_rate := 3 / 2, line := 4 }

/-- Cell text that no int parse accepts. -/
def badIntCell : String := "notanint"

/-- Raw customers row whose customer_id cell is not an integer. -/
def badIntRow : RawRow :=
  fun c => if c = colCustomerId then badIntCell else "x"

/-- The customers column set in a different order than declared. -/
def reorderedHeader : List String :=
  ["name", "customer_id", "email", "signup_date", "device_type", "country"]

/-- A header holding only a prefix of the declared customers columns. -/
def prefixHeader : List String := ["customer_id", "name"]

/-- The string literal true preceded by a space. -/
def spaceTrue : String := " true"

/-- A file system in which every dataset has a correct header and no
data rows, except customers, whose header is a two-column prefix. -/
def filesMismatch (ds : String) : Option CsvFile :=
  if ds = customersName then some { header := some prefixHeader, rows := [] }
  else if ds = plansName then some { header := some plansColumns, rows := [] }
  else if ds = contentName then some { header := some contentColumns, rows := [] }
  else if ds = subscriptionsName then some { header := some subscriptionsColumns, rows := [] }
  else if ds = usageLogsName then some { header := some usageLogsColumns, rows := [] }
  else none

/-- A file system in which every dataset has a correct header and no
data rows. -/
def filesAllOk (ds : String) : Option CsvFile :=
  if ds = customersName then some { header := some customersColumns, rows := [] }
  else if ds = plansName then some { header := some plansColumns, rows := [] }
  else if ds = contentName then some { header := some contentColumns, rows := [] }
  else if ds = subscriptionsName then some { header := some subscriptionsColumns, rows := [] }
  else if ds = usageLogsName then some { header := some usageLogsColumns, rows := [] }
  else none

/-!
Helper lemmas shared by the claim theorems below.
-/

theorem typeRow_error_iff (parsers : String → Option (String → Except String Value))
    (cols : List String) (r : RawRow) (c : String) (e : String) :
    typeRow parsers cols r = Except.error (c, e) ↔
      ∃ pre post p, cols = pre ++ c :: post ∧ (∀ c2 ∈ pre, cellOk parsers c2 r) ∧
        parsers c = some p ∧ p (r c) = Except.error e := by
  induction cols with
  | nil =>
    constructor
    · intro h
      simp [typeRow] at h
    · rintro ⟨pre, post, p, h, -, -, -⟩
      simp at h
  | cons hd tl ih =>
    cases hp : parsers hd with
    | none =>
      simp only [typeRow, hp]
      constructor
      · intro h
        cases ht : typeRow parsers tl r with
        | error ce =>
          rw [ht] at h
          simp only [Except.map] at h
          cases h
          rcases ih.mp ht with ⟨pre, post, p, hcols, hpre, hc, he⟩
          refine ⟨hd :: pre, post, p, by simp [hcols], ?_, hc, he⟩
          intro c2 hc2
          rcases List.mem_cons.mp hc2 with h2 | h2
          · subst h2; simp [cellOk, hp]
          · exact hpre c2 h2
        | ok fs =>
          rw [ht] at h
          simp [Except.map] at h
      · rintro ⟨pre, post, p, hcols, hpre, hc, he⟩
        cases pre with
        | nil =>
          simp only [List.nil_append] at hcols
          cases hcols
          rw [hp] at hc
          cases hc
        | cons q pre2 =>
          simp only [List.cons_append, List.cons.injEq] at hcols
          obtain ⟨hq, htl⟩ := hcols
          have h2 : typeRow parsers tl r = Except.error (c, e) :=
            ih.mpr ⟨pre2, post, p, htl, fun c2 hc2 => hpre c2 (List.mem_cons_of_mem q hc2), hc, he⟩
          rw [h2]
          rfl
    | some p0 =>
      simp only [typeRow, hp]
      cases hv : p0 (r hd) with
      | error e0 =>
        constructor
        · intro h
          cases h
          exact ⟨[], tl, p0, rfl, by simp, hp, hv⟩
        · rintro ⟨pre, post, p, hcols, hpre, hc, he⟩
          cases pre with
          | nil =>
            simp only [List.nil_append, List.cons.injEq] at hcols
            obtain ⟨hq, -⟩ := hcols
            subst hq
            rw [hp] at hc
            cases hc
            rw [hv] at he
            cases he
            rfl
          | cons q pre2 =>
            simp only [List.cons_append, List.cons.injEq] at hcols
            obtain ⟨hq, -⟩ := hcols
            subst hq
            have := hpre hd (List.mem_cons_self hd pre2)
            simp only [cellOk, hp] at this
            obtain ⟨v, hvok⟩ := this
            rw [hv] at hvok
            cases hvok
      | ok v =>
        constructor
        · intro h
          cases ht : typeRow parsers tl r with
          | error ce =>
            rw [ht] at h
            simp only [Except.map] at h
            cases h
            rcases ih.mp ht with ⟨pre, post, p, hcols, hpre, hc, he⟩
            refine ⟨hd :: pre, post, p, by simp [hcols], ?_, hc, he⟩
            intro c2 hc2
            rcases List.mem_cons.mp hc2 with h2 | h2
            · subst h2; exact (by simp [cellOk, hp]; exact ⟨v, hv⟩)
            · exact hpre c2 h2
          | ok fs =>
            rw [ht] at h
            simp [Except.map] at h
        · rintro ⟨pre, post, p, hcols, hpre, hc, he⟩
          cases pre with
          | nil =>
            simp only [List.nil_append, List.cons.injEq] at hcols
            obtain ⟨hq, -⟩ := hcols
            subst hq
            rw [hp] at hc
            cases hc
            rw [hv] at he
            cases he
          | cons q pre2 =>
            simp only [List.cons_append, List.cons.injEq] at hcols
            obtain ⟨hq, htl⟩ := hcols
            subst hq
            have h2 : typeRow parsers tl r = Except.error (c, e) :=
              ih.mpr ⟨pre2, post, p, htl, fun c2 hc2 => hpre c2 (List.mem_cons_of_mem hd hc2), hc, he⟩
            rw [h2]
            rfl

theorem typeRow_ok_passthrough (parsers : String → Option (String → Except String Value))
    (cols : List String) (r : RawRow) (fs : List (String × Value))
    (h : typeRow parsers cols r = Except.ok fs) :
    ∀ c ∈ cols, parsers c = none → (c, Value.vStr (r c)) ∈ fs := by
  induction cols generalizing fs with
  | nil => simp
  | cons hd tl ih =>
    intro c hc hnone
    cases hp : parsers hd with
    | none =>
      simp only [typeRow, hp] at h
      cases ht : typeRow parsers tl r with
      | error ce => rw [ht] at h; simp [Except.map] at h
      | ok fs0 =>
        rw [ht] at h
        simp only [Except.map, Except.ok.injEq] at h
        subst h
        rcases List.mem_cons.mp hc with h2 | h2
        · subst h2; exact List.mem_cons_self _ _
        · exact List.mem_cons_of_mem _ (ih fs0 ht c h2 hnone)
    | some p0 =>
      simp only [typeRow, hp] at h
      cases hv : p0 (r hd) with
      | error e0 => rw [hv] at h; cases h
      | ok v =>
        rw [hv] at h
        cases ht : typeRow parsers tl r with
        | error ce => rw [ht] at h; simp [Except.map] at h
        | ok fs0 =>
          rw [ht] at h
          simp only [Except.map, Except.ok.injEq] at h
          subst h
          rcases List.mem_cons.mp hc with h2 | h2
          · subst h2; rw [hp] at hnone; cases hnone
          · exact List.mem_cons_of_mem _ (ih fs0 ht c h2 hnone)

theorem processRows_mem_valid (dataset : String) (cfg : SchemaCfg) (ln : Nat)
    (rows : List RawRow) (t : TypedRow) (ht : t ∈ (processRows dataset cfg ln rows).1) :
    ln ≤ t.line ∧ ∃ r ∈ rows, typeRow cfg.parsers cfg.columns r = Except.ok t.fields := by
  induction rows generalizing ln with
  | nil => simp [processRows] at ht
  | cons r rs ih =>
    simp only [processRows] at ht
    cases htr : typeRow cfg.parsers cfg.columns r with
    | error ce =>
      rw [htr] at ht
      rcases ih (ln + 1) ht with ⟨hle, q, hq, hok⟩
      exact ⟨Nat.le_of_succ_le hle, q, List.mem_cons_of_mem _ hq, hok⟩
    | ok fs =>
      rw [htr] at ht
      rcases List.mem_cons.mp ht with h2 | h2
      · subst h2
        exact ⟨Nat.le_refl ln, r, List.mem_cons_self _ _, htr⟩
      · rcases ih (ln + 1) h2 with ⟨hle, q, hq, hok⟩
        exact ⟨Nat.le_of_succ_le hle, q, List.mem_cons_of_mem _ hq, hok⟩

theorem processRows_lines_lt (dataset : String) (cfg : SchemaCfg) (ln : Nat)
    (rows : List RawRow) :
    ((processRows dataset cfg ln rows).1).Pairwise (fun a b => a.line < b.line) := by
  induction rows generalizing ln with
  | nil => simp [processRows]
  | cons r rs ih =>
    simp only [processRows]
    cases htr : typeRow cfg.parsers cfg.columns r with
    | error ce => exact ih (ln + 1)
    | ok fs =>
      refine List.Pairwise.cons ?_ (ih (ln + 1))
      intro t ht
      have h1 := (processRows_mem_valid dataset cfg (ln + 1) rs t ht).1
      show ln < t.line
      omega

theorem processRows_counts (dataset : String) (cfg : SchemaCfg) (ln : Nat)
    (rows : List RawRow) :
    (processRows dataset cfg ln rows).1.length + (processRows dataset cfg ln rows).2.1 =
      rows.length := by
  induction rows generalizing ln with
  | nil => simp [processRows]
  | cons r rs ih =>
    simp only [processRows]
    cases htr : typeRow cfg.parsers cfg.columns r with
    | error ce =>
      simp only [List.length_cons]
      have := ih (ln + 1)
      omega
    | ok fs =>
      simp only [List.length_cons]
      have := ih (ln + 1)
      omega

theorem processRows_lines_sublist (dataset : String) (cfg : SchemaCfg) (ln : Nat)
    (rows : List RawRow) :
    ((processRows dataset cfg ln rows).1.map TypedRow.line).Sublist
      (List.range' ln rows.length) := by
  induction rows generalizing ln with
  | nil => simp [processRows]
  | cons r rs ih =>
    simp only [processRows, List.length_cons, List.range'_succ]
    cases htr : typeRow cfg.parsers cfg.columns r with
    | error ce => exact List.Sublist.cons ln (ih (ln + 1))
    | ok fs => exact List.Sublist.cons₂ ln (ih (ln + 1))

theorem subs_step_reject (q : SubRow) (qs : List SubRow) (e : Date)
    (hq : q.end_date = some e) (hlt : Date.lt e q.start_date = true) :
    validate_subscriptions_logic (q :: qs) =
      ((validate_subscriptions_logic qs).1, (validate_subscriptions_logic qs).2.1 + 1,
        (q.line, SubError.startAfterEnd q.start_date e) :: (validate_subscriptions_logic qs).2.2) := by
  simp only [validate_subscriptions_logic, hq]
  rw [if_pos hlt]

theorem subs_step_keep_some (q : SubRow) (qs : List SubRow) (e : Date)
    (hq : q.end_date = some e) (hlt : ¬ Date.lt e q.start_date = true) :
    validate_subscriptions_logic (q :: qs) =
      (q :: (validate_subscriptions_logic qs).1, (validate_subscriptions_logic qs).2.1,
        (validate_subscriptions_logic qs).2.2) := by
  simp only [validate_subscriptions_logic, hq]
  rw [if_neg hlt]

theorem subs_step_keep_none (q : SubRow) (qs : List SubRow) (hq : q.end_date = none) :
    validate_subscriptions_logic (q :: qs) =
      (q :: (validate_subscriptions_logic qs).1, (validate_subscriptions_logic qs).2.1,
        (validate_subscriptions_logic qs).2.2) := by
  simp only [validate_subscriptions_logic, hq]

theorem mem_subscriptions_valid (rows : List SubRow) (r : SubRow) :
    r ∈ (validate_subscriptions_logic rows).1 ↔
      r ∈ rows ∧ ∀ e, r.end_date = some e → Date.lt e r.start_date = false := by
  induction rows with
  | nil => simp [validate_subscriptions_logic]
  | cons q qs ih =>
    cases hq : q.end_date with
    | none =>
      rw [subs_step_keep_none q qs hq]
      simp only [List.mem_cons]
      constructor
      · rintro (h2 | h2)
        · subst h2
          exact ⟨Or.inl rfl, fun e he => by rw [hq] at he; cases he⟩
        · rcases ih.mp h2 with ⟨hm, hp⟩
          exact ⟨Or.inr hm, hp⟩
      · rintro ⟨hm | hm, hp⟩
        · exact Or.inl hm
        · exact Or.inr (ih.mpr ⟨hm, hp⟩)
    | some e =>
      by_cases hlt : Date.lt e q.start_date = true
      · rw [subs_step_reject q qs e hq hlt]
        constructor
        · intro h2
          rcases ih.mp h2 with ⟨hm, hp⟩
          exact ⟨List.mem_cons_of_mem q hm, hp⟩
        · rintro ⟨hm, hp⟩
          rcases List.mem_cons.mp hm with h2 | h2
          · subst h2
            have h3 := hp e hq
            rw [h3] at hlt
            cases hlt
          · exact ih.mpr ⟨h2, hp⟩
      · rw [subs_step_keep_some q qs e hq hlt]
        simp only [List.mem_cons]
        constructor
        · rintro (h2 | h2)
          · subst h2
            refine ⟨Or.inl rfl, fun e2 he2 => ?_⟩
            rw [hq] at he2
            cases he2
            exact Bool.not_eq_true _ |>.mp hlt
          · rcases ih.mp h2 with ⟨hm, hp⟩
            exact ⟨Or.inr hm, hp⟩
        · rintro ⟨hm | hm, hp⟩
          · exact Or.inl hm
          · exact Or.inr (ih.mpr ⟨hm, hp⟩)

theorem subscriptions_counts (rows : List SubRow) :
    (validate_subscriptions_logic rows).1.length + (validate_subscriptions_logic rows).2.1 =
        rows.length ∧
      (validate_subscriptions_logic rows).1.Sublist rows := by
  induction rows with
  | nil => simp [validate_subscriptions_logic]
  | cons q qs ih =>
    have h1 := ih.1
    cases hq : q.end_date with
    | none =>
      rw [subs_step_keep_none q qs hq]
      constructor
      · show (validate_subscriptions_logic qs).1.length + 1 +
            (validate_subscriptions_logic qs).2.1 = qs.length + 1
        omega
      · exact List.Sublist.cons₂ q ih.2
    | some e =>
      by_cases hlt : Date.lt e q.start_date = true
      · rw [subs_step_reject q qs e hq hlt]
        constructor
        · show (validate_subscriptions_logic qs).1.length +
              ((validate_subscriptions_logic qs).2.1 + 1) = qs.length + 1
          omega
        · exact List.Sublist.cons q ih.2
      · rw [subs_step_keep_some q qs e hq hlt]
        constructor
        · show (validate_subscriptions_logic qs).1.length + 1 +
              (validate_subscriptions_logic qs).2.1 = qs.length + 1
          omega
        · exact List.Sublist.cons₂ q ih.2

theorem usage_step_keep (q : UsageRow) (qs : List UsageRow) (cIds : Int → Bool)
    (cdur : Int → Option Int) (hq : usageErrors cIds cdur q = []) :
    validate_usage_rules (q :: qs) cIds cdur =
      (q :: (validate_usage_rules qs cIds cdur).1, (validate_usage_rules qs cIds cdur).2.1,
        (validate_usage_rules qs cIds cdur).2.2) := by
  simp only [validate_usage_rules, hq]
  rfl

theorem usage_step_reject (q : UsageRow) (qs : List UsageRow) (cIds : Int → Bool)
    (cdur : Int → Option Int) (hq : usageErrors cIds cdur q ≠ []) :
    validate_usage_rules (q :: qs) cIds cdur =
      ((validate_usage_rules qs cIds cdur).1, (validate_usage_rules qs cIds cdur).2.1 + 1,
        (usageErrors cIds cdur q).map (fun e => (q.line, e)) ++
          (validate_usage_rules qs cIds cdur).2.2) := by
  have hne : ¬ (usageErrors cIds cdur q).isEmpty = true := by
    simpa [List.isEmpty_iff] using hq
  simp only [validate_usage_rules]
  rw [if_neg hne]

theorem mem_usage_valid (rows : List UsageRow) (cIds : Int → Bool) (cdur : Int → Option Int)
    (r : UsageRow) :
    r ∈ (validate_usage_rules rows cIds cdur).1 ↔
      r ∈ rows ∧ usageErrors cIds cdur r = [] := by
  induction rows with
  | nil => simp [validate_usage_rules]
  | cons q qs ih =>
    by_cases hq : usageErrors cIds cdur q = []
    · rw [usage_step_keep q qs cIds cdur hq]
      simp only [List.mem_cons]
      constructor
      · rintro (h2 | h2)
        · subst h2
          exact ⟨Or.inl rfl, hq⟩
        · rcases ih.mp h2 with ⟨hm, hp⟩
          exact ⟨Or.inr hm, hp⟩
      · rintro ⟨hm | hm, hp⟩
        · exact Or.inl hm
        · exact Or.inr (ih.mpr ⟨hm, hp⟩)
    · rw [usage_step_reject q qs cIds cdur hq]
      constructor
      · intro h2
        rcases ih.mp h2 with ⟨hm, hp⟩
        exact ⟨List.mem_cons_of_mem q hm, hp⟩
      · rintro ⟨hm, hp⟩
        rcases List.mem_cons.mp hm with h2 | h2
        · subst h2
          exact absurd hp hq
        · exact ih.mpr ⟨h2, hp⟩

theorem usage_counts (rows : List UsageRow) (cIds : Int → Bool) (cdur : Int → Option Int) :
    (validate_usage_rules rows cIds cdur).1.length +
        (validate_usage_rules rows cIds cdur).2.1 = rows.length ∧
      (validate_usage_rules rows cIds cdur).1.Sublist rows := by
  induction rows with
  | nil => simp [validate_usage_rules]
  | cons q qs ih =>
    have h1 := ih.1
    by_cases hq : usageErrors cIds cdur q = []
    · rw [usage_step_keep q qs cIds cdur hq]
      constructor
      · show (validate_usage_rules qs cIds cdur).1.length + 1 +
            (validate_usage_rules qs cIds cdur).2.1 = qs.length + 1
        omega
      · exact List.Sublist.cons₂ q ih.2
    · rw [usage_step_reject q qs cIds cdur hq]
      constructor
      · show (validate_usage_rules qs cIds cdur).1.length +
            ((validate_usage_rules qs cIds cdur).2.1 + 1) = qs.length + 1
        omega
      · exact List.Sublist.cons q ih.2

/-!
Claim theorems.
-/

/-- C1: in the data-row loop of load_and_validate_schema (rows numbered
from line 2 on), the configured parsers are applied in declared column
order; on the first parse failure the row is abandoned with exactly one
diagnostic naming the dataset, line and column, the invalid counter
grows by exactly one, and processing continues with the next row; a row
with zero parse failures becomes a typed row in which columns without a
configured parser retain their original text. -/
theorem c1_schema_row_processing (dataset : String) (cfg : SchemaCfg) (ln : Nat)
    (r : RawRow) (rs rows : List RawRow) :
    load_and_validate_schema dataset cfg (some { header := some cfg.columns, rows := rows }) =
        Except.ok (processRows dataset cfg 2 rows) ∧
    (∀ c e, typeRow cfg.parsers cfg.columns r = Except.error (c, e) →
      processRows dataset cfg ln (r :: rs) =
          ((processRows dataset cfg (ln + 1) rs).1,
            (processRows dataset cfg (ln + 1) rs).2.1 + 1,
            { dataset := dataset, line := ln, column := c, message := e } ::
              (processRows dataset cfg (ln + 1) rs).2.2) ∧
        ∃ pre post p, cfg.columns = pre ++ c :: post ∧
          (∀ c2 ∈ pre, cellOk cfg.parsers c2 r) ∧
          cfg.parsers c = some p ∧ p (r c) = Except.error e) ∧
    (∀ fs, typeRow cfg.parsers cfg.columns r = Except.ok fs →
      processRows dataset cfg ln (r :: rs) =
          ({ fields := fs, line := ln } :: (processRows dataset cfg (ln + 1) rs).1,
            (processRows dataset cfg (ln + 1) rs).2.1,
            (processRows dataset cfg (ln + 1) rs).2.2) ∧
        ∀ c ∈ cfg.columns, cfg.parsers c = none → (c, Value.vStr (r c)) ∈ fs) := by
  refine ⟨by simp [load_and_validate_schema], ?_, ?_⟩
  · intro c e h
    refine ⟨?_, (typeRow_error_iff cfg.parsers cfg.columns r c e).mp h⟩
    simp only [processRows, h]
  · intro fs h
    refine ⟨?_, typeRow_ok_passthrough cfg.parsers cfg.columns r fs h⟩
    simp only [processRows, h]

/-- C2: for every row given to validate_usage_rules, the four checks
(customer membership, content membership, duration bound when content is
known, completion rate within zero and one) are all evaluated and each
violation is present independently of the others; every violation is
logged individually under the row's line number; the invalid counter
grows by exactly one per rejected row however many checks failed; and a
row is in the valid output exactly when no check failed. -/
theorem c2_usage_rules (r : UsageRow) (rs rows : List UsageRow)
    (cIds : Int → Bool) (cdur : Int → Option Int) :
    (UsageError.unknownCustomer r.customer_id ∈ usageErrors cIds cdur r ↔
        cIds r.customer_id = false) ∧
    (UsageError.unknownContent r.content_id ∈ usageErrors cIds cdur r ↔
        cdur r.content_id = none) ∧
    (∀ d, cdur r.content_id = some d →
      (UsageError.durationExceeds r.duration_watched d ∈ usageErrors cIds cdur r ↔
        d < r.duration_watched)) ∧
    (UsageError.completionOutOfRange r.completion_rate ∈ usageErrors cIds cdur r ↔
        ¬(0 ≤ r.completion_rate ∧ r.completion_rate ≤ 1)) ∧
    (usageErrors cIds cdur r = [] →
      validate_usage_rules (r :: rs) cIds cdur =
        (r :: (validate_usage_rules rs cIds cdur).1, (validate_usage_rules rs cIds cdur).2.1,
          (validate_usage_rules rs cIds cdur).2.2)) ∧
    (usageErrors cIds cdur r ≠ [] →
      validate_usage_rules (r :: rs) cIds cdur =
        ((validate_usage_rules rs cIds cdur).1, (validate_usage_rules rs cIds cdur).2.1 + 1,
          (usageErrors cIds cdur r).map (fun e => (r.line, e)) ++
            (validate_usage_rules rs cIds cdur).2.2)) ∧
    (r ∈ (validate_usage_rules rows cIds cdur).1 ↔
        r ∈ rows ∧ usageErrors cIds cdur r = []) := by
  refine ⟨?_, ?_, ?_, ?_, usage_step_keep r rs cIds cdur, usage_step_reject r rs cIds cdur,
    mem_usage_valid rows cIds cdur r⟩
  · by_cases hc : cIds r.customer_id = true
    · cases hd : cdur r.content_id with
      | none => simp [usageErrors, hc, hd]
      | some d0 =>
        by_cases hlt : d0 < r.duration_watched <;>
          by_cases hr : (0 ≤ r.completion_rate ∧ r.completion_rate ≤ 1) <;>
            simp [usageErrors, hc, hd, hlt, hr]
    · have hc2 : cIds r.customer_id = false := by
        cases hcv : cIds r.customer_id
        · rfl
        · exact absurd hcv hc
      simp [usageErrors, hc2]
  · by_cases hc : cIds r.customer_id = true <;>
      cases hd : cdur r.content_id with
      | none => simp [usageErrors, hc, hd]
      | some d0 =>
        by_cases hlt : d0 < r.duration_watched <;>
          by_cases hr : (0 ≤ r.completion_rate ∧ r.completion_rate ≤ 1) <;>
            simp [usageErrors, hc, hd, hlt, hr]
  · intro d hd
    by_cases hc : cIds r.customer_id = true <;>
      by_cases hlt : d < r.duration_watched <;>
        by_cases hr : (0 ≤ r.completion_rate ∧ r.completion_rate ≤ 1) <;>
          simp [usageErrors, hc, hd, hlt, hr]
  · by_cases hc : cIds r.customer_id = true <;>
      cases hd : cdur r.content_id with
      | none => simp [usageErrors, hc, hd]
      | some d0 =>
        by_cases hlt : d0 < r.duration_watched <;>
          by_cases hr : (0 ≤ r.completion_rate ∧ r.completion_rate ≤ 1) <;>
            simp [usageErrors, hc, hd, hlt, hr]

/-- C3: a subscriptions row is rejected by validate_subscriptions_logic
exactly when its end date is present and its start date is
chronologically after it; a row with no end date is always kept; the
row (start 2024-01-01, end 2024-12-31) is kept, (start 2024-12-31,
end 2024-01-01) is rejected, and (start 2024-01-01, end absent) is
kept. -/
theorem c3_subscriptions_rule (rows : List SubRow) (r : SubRow) (rs : List SubRow) :
    (r ∈ (validate_subscriptions_logic rows).1 ↔
      r ∈ rows ∧ ∀ e, r.end_date = some e → Date.lt e r.start_date = false) ∧
    (∀ e, r.end_date = some e → Date.lt e r.start_date = true →
      validate_subscriptions_logic (r :: rs) =
        ((validate_subscriptions_logic rs).1, (validate_subscriptions_logic rs).2.1 + 1,
          (r.line, SubError.startAfterEnd r.start_date e) ::
            (validate_subscriptions_logic rs).2.2)) ∧
    (r.end_date = none →
      validate_subscriptions_logic (r :: rs) =
        (r :: (validate_subscriptions_logic rs).1, (validate_subscriptions_logic rs).2.1,
          (validate_subscriptions_logic rs).2.2)) ∧
    validate_subscriptions_logic [subKept] = ([subKept], 0, []) ∧
    validate_subscriptions_logic [subRejected] =
      ([], 1, [(2, SubError.startAfterEnd dateDec31 dateJan1)]) ∧
    validate_subscriptions_logic [subOpenEnd] = ([subOpenEnd], 0, []) := by
  refine ⟨mem_subscriptions_valid rows r,
    fun e hq hlt => subs_step_reject r rs e hq hlt,
    fun hq => subs_step_keep_none r rs hq, ?_, ?_, ?_⟩ <;> decide

/-- C4 counterexample: with the customers header a two-column prefix
and every sibling dataset well-formed, the run does not complete with a
summary for the siblings; it aborts whole with the customers schema
error, although plans alone would have validated fine. -/
theorem c4_counterexample :
    run_validations filesMismatch =
        Except.error (LoadError.schemaMismatch customersName customersColumns prefixHeader) ∧
    load_and_validate_schema plansName plansCfg (filesMismatch plansName) =
        Except.ok ([], 0, []) := by
  constructor <;> rfl

/-- C4 (amended): a SchemaMismatch is not dataset-scoped at run level:
run_validations propagates the first fatal load error and aborts the
entire run, so the run succeeds exactly when all five datasets load;
siblings queued after the failed dataset are not validated and no
summary is emitted. -/
theorem c4_run_abort (fs : String → Option CsvFile) :
    exceptOk (run_validations fs) = true ↔
      (exceptOk (load_and_validate_schema customersName customersCfg (fs customersName)) = true ∧
        exceptOk (load_and_validate_schema plansName plansCfg (fs plansName)) = true ∧
        exceptOk (load_and_validate_schema contentName contentCfg (fs contentName)) = true ∧
        exceptOk (load_and_validate_schema subscriptionsName subscriptionsCfg
          (fs subscriptionsName)) = true ∧
        exceptOk (load_and_validate_schema usageLogsName usageLogsCfg
          (fs usageLogsName)) = true) := by
  cases h1 : load_and_validate_schema customersName customersCfg (fs customersName) with
  | error e => simp [run_validations, h1, exceptOk]
  | ok v1 =>
    obtain ⟨c1, i1, d1⟩ := v1
    cases h2 : load_and_validate_schema plansName plansCfg (fs plansName) with
    | error e => simp [run_validations, h1, h2, exceptOk]
    | ok v2 =>
      obtain ⟨c2, i2, d2⟩ := v2
      cases h3 : load_and_validate_schema contentName contentCfg (fs contentName) with
      | error e => simp [run_validations, h1, h2, h3, exceptOk]
      | ok v3 =>
        obtain ⟨c3, i3, d3⟩ := v3
        cases h4 : load_and_validate_schema subscriptionsName subscriptionsCfg
            (fs subscriptionsName) with
        | error e => simp [run_validations, h1, h2, h3, h4, exceptOk]
        | ok v4 =>
          obtain ⟨c4, i4, d4⟩ := v4
          cases h5 : load_and_validate_schema usageLogsName usageLogsCfg (fs usageLogsName) with
          | error e => simp [run_validations, h1, h2, h3, h4, h5, exceptOk]
          | ok v5 =>
            obtain ⟨c5, i5, d5⟩ := v5
            simp [run_validations, h1, h2, h3, h4, h5, exceptOk]

/-- C5: load_and_validate_schema fails fatally, with no rows processed,
whenever the file is missing, no header is present, or the header is
not exactly the declared column sequence; in particular the customers
column set in a different order, and the prefix header of customer_id
and name alone, are rejected as whole-dataset failures whatever the
data rows hold. -/
theorem c5_fatal_schema (dataset : String) (cfg : SchemaCfg) (rows : List RawRow) :
    load_and_validate_schema dataset cfg none =
        Except.error (LoadError.sourceMissing dataset) ∧
    load_and_validate_schema dataset cfg (some { header := none, rows := rows }) =
        Except.error (LoadError.noHeader dataset) ∧
    (∀ h, h ≠ cfg.columns →
      load_and_validate_schema dataset cfg (some { header := some h, rows := rows }) =
        Except.error (LoadError.schemaMismatch dataset cfg.columns h)) ∧
    load_and_validate_schema customersName customersCfg
        (some { header := some reorderedHeader, rows := rows }) =
      Except.error (LoadError.schemaMismatch customersName customersColumns reorderedHeader) ∧
    load_and_validate_schema customersName customersCfg
        (some { header := some prefixHeader, rows := rows }) =
      Except.error (LoadError.schemaMismatch customersName customersColumns prefixHeader) := by
  refine ⟨rfl, rfl, fun h hne => ?_, ?_, ?_⟩
  · simp only [load_and_validate_schema]
    rw [if_neg hne]
  · simp only [load_and_validate_schema]
    rw [if_neg (by decide : ¬ reorderedHeader = customersCfg.columns)]
    rfl
  · simp only [load_and_validate_schema]
    rw [if_neg (by decide : ¬ prefixHeader = customersCfg.columns)]
    rfl

/-- C6 counterexample: parse_bool accepts the string holding true with
a leading space, which is not a bare case-insensitive match of true, 1
or yes, so acceptance is not exactly case-insensitive matching. -/
theorem c6_counterexample :
    parse_bool spaceTrue = Except.ok (Value.vBool true) ∧
    ¬(lowerStr spaceTrue = "true" ∨ lowerStr spaceTrue = "1" ∨
        lowerStr spaceTrue = "yes") := by
  constructor
  · rfl
  · decide

/-- C6 (amended): after stripping leading and trailing whitespace,
parse_bool returns true exactly on a case-insensitive match of true, 1
or yes, returns false exactly on a case-insensitive match of false, 0
or no, and fails on every other string. -/
theorem c6_parse_bool (s : String) :
    (parse_bool s = Except.ok (Value.vBool true) ↔
      (normBool s = "true" ∨ normBool s = "1" ∨ normBool s = "yes")) ∧
    (parse_bool s = Except.ok (Value.vBool false) ↔
      (normBool s = "false" ∨ normBool s = "0" ∨ normBool s = "no")) ∧
    (¬(normBool s = "true" ∨ normBool s = "1" ∨ normBool s = "yes") →
      ¬(normBool s = "false" ∨ normBool s = "0" ∨ normBool s = "no") →
      parse_bool s = Except.error ("invalid boolean literal: " ++ s)) := by
  by_cases h1 : (normBool s = "true" ∨ normBool s = "1" ∨ normBool s = "yes")
  · have hT : parse_bool s = Except.ok (Value.vBool true) := by
      unfold parse_bool
      rw [if_pos h1]
    have h2 : ¬(normBool s = "false" ∨ normBool s = "0" ∨ normBool s = "no") := by
      rcases h1 with h | h | h <;> rintro (g | g | g) <;> rw [h] at g <;>
        exact absurd g (by decide)
    refine ⟨by simp [hT, h1], by simp [hT, h2], fun hna => absurd h1 hna⟩
  · by_cases h2 : (normBool s = "false" ∨ normBool s = "0" ∨ normBool s = "no")
    · have hF : parse_bool s = Except.ok (Value.vBool false) := by
        unfold parse_bool
        rw [if_neg h1, if_pos h2]
      refine ⟨by simp [hF, h1], by simp [hF, h2], fun hna hnb => absurd h2 hnb⟩
    · have hE : parse_bool s = Except.error ("invalid boolean literal: " ++ s) := by
        unfold parse_bool
        rw [if_neg h1, if_neg h2]
      refine ⟨by simp [hE, h1], by simp [hE, h2], fun hna hnb => hE⟩

/-- C7: every typed row produced by the schema stage carries a line
number unique within its dataset and at least 2, and a row in the final
valid set of any stage passed every check of that stage: its fields are
a successful typing of some input row, a surviving subscriptions row
satisfies the date rule, and a surviving usage row has no violation. -/
theorem c7_typed_row_integrity (dataset : String) (cfg : SchemaCfg) (rows : List RawRow)
    (srows : List SubRow) (urows : List UsageRow) (cIds : Int → Bool)
    (cdur : Int → Option Int) :
    ((processRows dataset cfg 2 rows).1.map TypedRow.line).Pairwise (fun a b => a ≠ b) ∧
    (∀ t ∈ (processRows dataset cfg 2 rows).1, 2 ≤ t.line) ∧
    (∀ t ∈ (processRows dataset cfg 2 rows).1,
      ∃ r ∈ rows, typeRow cfg.parsers cfg.columns r = Except.ok t.fields) ∧
    (∀ s ∈ (validate_subscriptions_logic srows).1,
      s ∈ srows ∧ ∀ e, s.end_date = some e → Date.lt e s.start_date = false) ∧
    (∀ u ∈ (validate_usage_rules urows cIds cdur).1,
      u ∈ urows ∧ usageErrors cIds cdur u = []) := by
  refine ⟨?_, ?_, ?_, ?_, ?_⟩
  · exact List.pairwise_map.mpr
      ((processRows_lines_lt dataset cfg 2 rows).imp (fun h => Nat.ne_of_lt h))
  · exact fun t ht => (processRows_mem_valid dataset cfg 2 rows t ht).1
  · exact fun t ht => (processRows_mem_valid dataset cfg 2 rows t ht).2
  · exact fun s hs => (mem_subscriptions_valid srows s).mp hs
  · exact fun u hu => (mem_usage_valid urows cIds cdur u).mp hu

/-- C8: a dataset file with the correct header and no data rows
validates successfully with zero valid rows and invalid count zero. -/
theorem c8_header_only (dataset : String) (cfg : SchemaCfg) :
    load_and_validate_schema dataset cfg (some { header := some cfg.columns, rows := [] }) =
      Except.ok ([], 0, []) := by
  simp [load_and_validate_schema, processRows]

/-- C9: both row-level validators are deterministic functions of their
inputs: equal input rows, customer sets and duration maps yield equal
valid rows, invalid counts and diagnostics on any two runs. -/
theorem c9_deterministic (rows1 rows2 : List SubRow) (urows1 urows2 : List UsageRow)
    (cIds1 cIds2 : Int → Bool) (cdur1 cdur2 : Int → Option Int) :
    (rows1 = rows2 →
      validate_subscriptions_logic rows1 = validate_subscriptions_logic rows2) ∧
    (urows1 = urows2 → cIds1 = cIds2 → cdur1 = cdur2 →
      validate_usage_rules urows1 cIds1 cdur1 = validate_usage_rules urows2 cIds2 cdur2) :=
  ⟨fun h => h ▸ rfl, fun h1 h2 h3 => h1 ▸ h2 ▸ h3 ▸ rfl⟩

/-- C10: each stage partitions its input and preserves order: valid
rows plus the invalid count equals the number of input rows, the line
numbers of the schema stage's typed rows are a subsequence of the input
line numbering from 2, and the later stages' valid rows are a
subsequence of their input rows. -/
theorem c10_partition_order (dataset : String) (cfg : SchemaCfg) (rows : List RawRow)
    (srows : List SubRow) (urows : List UsageRow) (cIds : Int → Bool)
    (cdur : Int → Option Int) :
    ((processRows dataset cfg 2 rows).1.length + (processRows dataset cfg 2 rows).2.1 =
        rows.length ∧
      ((processRows dataset cfg 2 rows).1.map TypedRow.line).Sublist
        (List.range' 2 rows.length)) ∧
    ((validate_subscriptions_logic srows).1.length +
        (validate_subscriptions_logic srows).2.1 = srows.length ∧
      (validate_subscriptions_logic srows).1.Sublist srows) ∧
    ((validate_usage_rules urows cIds cdur).1.length +
        (validate_usage_rules urows cIds cdur).2.1 = urows.length ∧
      (validate_usage_rules urows cIds cdur).1.Sublist urows) :=
  ⟨⟨processRows_counts dataset cfg 2 rows, processRows_lines_sublist dataset cfg 2 rows⟩,
    subscriptions_counts srows, usage_counts urows cIds cdur⟩

end Validate
